import Mathlib

/-! Verification of the core expense-tracking logic of src/main.py.

The SQLite database file data/expenses.db is modelled as an explicit record of
its four logical tables; every repository function of the Python source becomes
a pure function over that state.  Amounts (SQLite REAL currency values) are
modelled as rationals; date strings stay strings, exactly as stored. -/

namespace PyTrack

/-- One row of the expenses table: id, date, amount, category, note. -/
structure Expense where
  id : Nat
  date : String
  amount : ℚ
  category : String
  note : String
  deriving DecidableEq

/-- Logical contents of the store: the set of created tables plus the rows of
the four tables.  nextId models the AUTOINCREMENT counter of expenses.id. -/
structure DB where
  tables : List String
  expenses : List Expense
  nextId : Nat
  categories : List String
  goals : List (String × ℚ)
  settings : List (String × String)
  deriving DecidableEq

/-- A store on which no statement has ever run: no tables, no rows. -/
def emptyDB : DB :=
  { tables := [], expenses := [], nextId := 1, categories := [], goals := [], settings := [] }

/-- The four tables created by initialize_db. -/
def tableNames : List String := ["expenses", "categories", "goals", "settings"]

/-- The default category seed of initialize_db. -/
def defaultCategories : List String := ["Food", "Travel", "Shopping", "Bills", "Misc"]

/-- CREATE TABLE IF NOT EXISTS: record the table name when it is missing. -/
def createTable (ts : List String) (n : String) : List String :=
  if n ∈ ts then ts else ts ++ [n]

/-- Split a character list at every dash, keeping empty segments. -/
def splitOnDash : List Char → List (List Char)
  | [] => [[]]
  | c :: cs =>
    let r := splitOnDash cs
    if c = '-' then [] :: r
    else
      match r with
      | [] => [[c]]
      | g :: gs => (c :: g) :: gs

/-- Numeric value of a list of decimal digit characters. -/
def digitsVal (cs : List Char) : Nat :=
  cs.foldl (fun n c => 10 * n + (c.toNat - 48)) 0

/-- Gregorian leap-year rule used by both Python datetime and SQLite. -/
def isLeapYear (y : Nat) : Bool :=
  y % 4 = 0 && (y % 100 ≠ 0 || y % 400 = 0)

/-- Number of days of month m in year y. -/
def daysInMonth (y m : Nat) : Nat :=
  if m = 2 then (if isLeapYear y then 29 else 28)
  else if m = 4 ∨ m = 6 ∨ m = 9 ∨ m = 11 then 30
  else 31

/-- Acceptance condition of datetime.strptime on a year, month and day
segment: a 4-digit year of at least 1 (datetime.MINYEAR), a 1- or 2-digit
month in 1..12 and a 1- or 2-digit day valid for that month and year;
CPython accepts non-zero-padded month and day segments. -/
def ymdLoose (ys ms ds : List Char) : Bool :=
  decide (ys.length = 4 ∧ ys.all Char.isDigit = true ∧
          1 ≤ ms.length ∧ ms.length ≤ 2 ∧ ms.all Char.isDigit = true ∧
          1 ≤ ds.length ∧ ds.length ≤ 2 ∧ ds.all Char.isDigit = true ∧
          1 ≤ digitsVal ys ∧
          1 ≤ digitsVal ms ∧ digitsVal ms ≤ 12 ∧
          1 ≤ digitsVal ds ∧ digitsVal ds ≤ daysInMonth (digitsVal ys) (digitsVal ms))

/-- Models success of datetime.strptime(date_str, percent-Y-m-d) as used by
add_expense: year, month and day segments separated by dashes with nothing
left over. -/
def strptimeValidYMD (s : String) : Bool :=
  match splitOnDash s.toList with
  | [ys, ms, ds] => ymdLoose ys ms ds
  | _ => false

/-- Zero-padded variant of the segment check: month and day must be exactly
two digits. -/
def ymdStrict (ys ms ds : List Char) : Bool :=
  decide (ys.length = 4 ∧ ms.length = 2 ∧ ds.length = 2 ∧
          ys.all Char.isDigit = true ∧ ms.all Char.isDigit = true ∧ ds.all Char.isDigit = true ∧
          1 ≤ digitsVal ys ∧
          1 ≤ digitsVal ms ∧ digitsVal ms ≤ 12 ∧
          1 ≤ digitsVal ds ∧ digitsVal ds ≤ daysInMonth (digitsVal ys) (digitsVal ms))

/-- Modelled from the spec wording: a real calendar date written in the
zero-padded fixed-width YYYY-MM-DD form.  Used only to compare the spec
claims against the validation the source actually performs. -/
def isPaddedValidDate (s : String) : Bool :=
  match splitOnDash s.toList with
  | [ys, ms, ds] => ymdStrict ys ms ds
  | _ => false

/-- Year-month string assembled from a year and a month segment. -/
def ym2 (ys ms : List Char) : String :=
  String.mk (ys ++ '-' :: ms)

/-- Year-month part of a date string, as the claims phrase it: everything up
to the second dash. -/
def yearMonthOf (s : String) : String :=
  match splitOnDash s.toList with
  | [ys, ms, _] => ym2 ys ms
  | _ => ""

/-- Two-digit rendering of a month number. -/
def pad2 (n : Nat) : List Char :=
  if n < 10 then ['0', Char.ofNat (48 + n)]
  else [Char.ofNat (48 + n / 10), Char.ofNat (48 + n % 10)]

/-- SQLite date parsing on a segment triple: fixed-width YYYY-MM-DD layout
with month in 1..12 and day in 1..31; a day past the end of the month rolls
into the next month. -/
def sqliteYM3 (ys ms ds : List Char) : Option String :=
  if ys.length = 4 ∧ ms.length = 2 ∧ ds.length = 2 ∧
     ys.all Char.isDigit = true ∧ ms.all Char.isDigit = true ∧ ds.all Char.isDigit = true ∧
     1 ≤ digitsVal ms ∧ digitsVal ms ≤ 12 ∧ 1 ≤ digitsVal ds ∧ digitsVal ds ≤ 31 then
    if daysInMonth (digitsVal ys) (digitsVal ms) < digitsVal ds then
      some (ym2 ys (pad2 (digitsVal ms + 1)))
    else
      some (ym2 ys ms)
  else none

/-- Models the SQL expression strftime(percent-Y-m, date) on a TEXT date
column: SQLite parses only dash-separated YYYY-MM-DD text here and yields
NULL (none) on anything else. -/
def sqliteYearMonth (s : String) : Option String :=
  match splitOnDash s.toList with
  | [ys, ms, ds] => sqliteYM3 ys ms ds
  | _ => none

/-- Lexicographic order on character lists by code point; on the ASCII date
strings involved this is exactly the BINARY text collation SQLite applies to
ORDER BY and BETWEEN. -/
def charListLe : List Char → List Char → Bool
  | [], _ => true
  | _ :: _, [] => false
  | a :: as, b :: bs =>
    if a.toNat < b.toNat then true
    else if b.toNat < a.toNat then false
    else charListLe as bs

/-- SQLite BINARY text comparison, as a total order on strings. -/
def strLe (a b : String) : Bool :=
  charListLe a.toList b.toList

/-- Characters removed by Python str.strip() with no argument (ASCII range). -/
def pyIsSpace (c : Char) : Bool :=
  c = ' ' || c = '\t' || c = '\n' || c = '\r' || c = '\x0b' || c = '\x0c'

/-- Python str.strip(): drop whitespace from both ends. -/
def pyStrip (s : String) : String :=
  String.mk (((s.toList.dropWhile pyIsSpace).reverse.dropWhile pyIsSpace).reverse)

/-- Models initialize_db: create the four tables if missing, INSERT OR IGNORE
the default currency symbol, and seed the five default categories when the
categories table is empty. -/
def init_db (db : DB) : DB :=
  { db with
    tables := List.foldl createTable db.tables tableNames
    settings :=
      if (db.settings.lookup "currency_symbol").isSome then db.settings
      else db.settings ++ [("currency_symbol", "$")]
    categories :=
      if db.categories.length = 0 then db.categories ++ defaultCategories
      else db.categories }

/-- Models get_setting: SELECT value FROM settings WHERE key = ?. -/
def get_setting (db : DB) (key : String) : Option String :=
  db.settings.lookup key

/-- Models update_setting: REPLACE INTO settings (key, value). -/
def update_setting (db : DB) (key value : String) : DB :=
  if (db.settings.lookup key).isSome then
    { db with settings := db.settings.map (fun kv => if kv.1 = key then (key, value) else kv) }
  else
    { db with settings := db.settings ++ [(key, value)] }

/-- Models add_expense: reject unless strptime accepts the date and the amount
is positive, only then INSERT the row; returns the new state and the boolean
the Python function returns. -/
def add_expense (db : DB) (date_str : String) (amount : ℚ) (category note : String) :
    DB × Bool :=
  if strptimeValidYMD date_str = false ∨ amount ≤ 0 then (db, false)
  else
    ({ db with
        expenses := db.expenses ++ [⟨db.nextId, date_str, amount, category, note⟩]
        nextId := db.nextId + 1 }, true)

/-- Date order used for ORDER BY date DESC. -/
def dateGe (a b : Expense) : Prop := strLe b.date a.date = true

/-- Date order used for ORDER BY date (ascending). -/
def dateLe (a b : Expense) : Prop := strLe a.date b.date = true

instance : DecidableRel dateGe := fun a b => inferInstanceAs (Decidable (strLe b.date a.date = true))

instance : DecidableRel dateLe := fun a b => inferInstanceAs (Decidable (strLe a.date b.date = true))

/-- Models get_all_expenses: SELECT id, date, amount, category, note FROM
expenses ORDER BY date DESC. -/
def get_all_expenses (db : DB) : List Expense :=
  List.insertionSort dateGe db.expenses

/-- Models delete_expense: DELETE FROM expenses WHERE id = ?, returning
rowcount > 0. -/
def delete_expense (db : DB) (expense_id : Nat) : DB × Bool :=
  ({ db with expenses := db.expenses.filter (fun e => e.id ≠ expense_id) },
   decide (0 < db.expenses.countP (fun e => decide (e.id = expense_id))))

/-- Models get_categories: SELECT name FROM categories ORDER BY name. -/
def get_categories (db : DB) : List String :=
  List.insertionSort (fun a b => strLe a b = true) db.categories

/-- Models add_category: the empty-after-strip check runs before any database
statement; a primary-key violation on INSERT is reported as the distinct
already-exists message. -/
def add_category (db : DB) (category_name : String) : DB × Bool × String :=
  if pyStrip category_name = "" then
    (db, false, "Category name cannot be empty.")
  else if category_name ∈ db.categories then
    (db, false, "Error: Category \x27" ++ category_name ++ "\x27 already exists.")
  else
    ({ db with categories := db.categories ++ [category_name] },
     true, "Category \x27" ++ category_name ++ "\x27 added successfully.")

/-- Models set_monthly_goal: REPLACE INTO goals (month, goal). -/
def set_monthly_goal (db : DB) (month_str : String) (goal_amount : ℚ) : DB :=
  if (db.goals.lookup month_str).isSome then
    { db with goals := db.goals.map (fun r => if r.1 = month_str then (month_str, goal_amount) else r) }
  else
    { db with goals := db.goals ++ [(month_str, goal_amount)] }

/-- Models get_monthly_goal: SELECT goal FROM goals WHERE month = ?, with 0.0
when no row matches. -/
def get_monthly_goal (db : DB) (month_str : String) : ℚ :=
  (db.goals.lookup month_str).getD 0

/-- Models get_total_expenses_for_month: SUM(amount) over the rows whose
strftime(percent-Y-m, date) equals the given month, with 0.0 for NULL. -/
def get_total_expenses_for_month (db : DB) (month_str : String) : ℚ :=
  ((db.expenses.filter (fun e => sqliteYearMonth e.date = some month_str)).map Expense.amount).sum

/-- Models get_expenses_in_date_range: SELECT date, amount, category, note
WHERE date BETWEEN start AND end (inclusive, BINARY text comparison)
ORDER BY date. -/
def get_expenses_in_date_range (db : DB) (start_date end_date : String) :
    List (String × ℚ × String × String) :=
  (List.insertionSort dateLe
      (db.expenses.filter (fun e => strLe start_date e.date && strLe e.date end_date))).map
    (fun e => (e.date, e.amount, e.category, e.note))

/-- Models get_average_daily_expense: AVG(daily_total) over
SELECT SUM(amount) GROUP BY date, with 0.0 when the average is NULL. -/
def get_average_daily_expense (db : DB) : ℚ :=
  let days := (db.expenses.map Expense.date).dedup
  if days = [] then 0
  else (days.map (fun d =>
        ((db.expenses.filter (fun e => e.date = d)).map Expense.amount).sum)).sum
       / (days.length : ℚ)

/-- Models the budget banding of ExpenseTrackerApp.update_goal_display: with a
positive goal the label follows the percentage spent divided by goal times
100; otherwise the no-goal text is shown. -/
def budget_status (goal spent : ℚ) : String :=
  if 0 < goal then
    if 100 < spent / goal * 100 then "Status: Over Budget!"
    else if 85 < spent / goal * 100 then "Status: Nearing Budget"
    else "Status: On Track"
  else "Set a goal to see your status."

/-- The state-changing core operations reachable from the two front ends. -/
inductive Op where
  | addExpense (date : String) (amount : ℚ) (category note : String)
  | deleteExpense (i : Nat)
  | addCategory (name : String)
  | setMonthlyGoal (month : String) (amount : ℚ)
  | updateSetting (key value : String)
  | initDb

/-- Effect of one operation on the store. -/
def applyOp (db : DB) : Op → DB
  | .addExpense d a c n => (add_expense db d a c n).1
  | .deleteExpense i => (delete_expense db i).1
  | .addCategory n => (add_category db n).1
  | .setMonthlyGoal m a => set_monthly_goal db m a
  | .updateSetting k v => update_setting db k v
  | .initDb => init_db db

/-- Effect of a sequence of operations. -/
def applyOps (db : DB) (ops : List Op) : DB :=
  ops.foldl applyOp db

/-- The store right after first initialization. -/
def dbInit : DB := init_db emptyDB

/-- States reachable by running core operations on an initialized store. -/
def Reachable (db : DB) : Prop :=
  ∃ ops : List Op, applyOps dbInit ops = db

/-- Invariants that hold in every reachable state. -/
def GoodDB (db : DB) : Prop :=
  (∀ e ∈ db.expenses, 0 < e.amount ∧ strptimeValidYMD e.date = true ∧ e.id < db.nextId) ∧
  (∃ v, ("currency_symbol", v) ∈ db.settings) ∧
  db.categories ≠ [] ∧
  db.tables = tableNames

/-- Store holding a single expense, used to instantiate general theorems. -/
def dbOne : DB :=
  (add_expense dbInit "2024-01-05" 3 "Food" "lunch").1

/-- Store with one expense on one day and two on another. -/
def avgExampleDB : DB :=
  { tables := tableNames
    expenses := [⟨1, "2024-01-01", 10, "Food", ""⟩,
                 ⟨2, "2024-01-02", 4, "Food", ""⟩,
                 ⟨3, "2024-01-02", 6, "Travel", ""⟩]
    nextId := 4
    categories := defaultCategories
    goals := []
    settings := [("currency_symbol", "$")] }

/-- Store with expenses dated on a range boundary and just past it. -/
def rangeExampleDB : DB :=
  { tables := tableNames
    expenses := [⟨1, "2024-01-31", 5, "Food", ""⟩,
                 ⟨2, "2024-02-01", 7, "Food", ""⟩]
    nextId := 3
    categories := defaultCategories
    goals := []
    settings := [("currency_symbol", "$")] }

/-! Helper lemmas about the embedded operations. -/

theorem charListLe_cons (a b : Char) (as bs : List Char) :
    charListLe (a :: as) (b :: bs) = true ↔
      (a.toNat < b.toNat ∨ (a.toNat = b.toNat ∧ charListLe as bs = true)) := by
  simp only [charListLe]
  by_cases h1 : a.toNat < b.toNat
  · simp [h1]
  · by_cases h2 : b.toNat < a.toNat
    · rw [if_neg h1, if_pos h2]
      constructor
      · intro h; exact absurd h (by simp)
      · intro h; omega
    · have he : a.toNat = b.toNat := by omega
      simp [h1, h2, he]

theorem charListLe_total : ∀ as bs : List Char, charListLe as bs = true ∨ charListLe bs as = true := by
  intro as
  induction as with
  | nil => intro bs; left; rfl
  | cons a as ih =>
    intro bs
    cases bs with
    | nil => right; rfl
    | cons b bs =>
      rcases Nat.lt_trichotomy a.toNat b.toNat with h | h | h
      · left; rw [charListLe_cons]; exact Or.inl h
      · rcases ih bs with h2 | h2
        · left; rw [charListLe_cons]; exact Or.inr ⟨h, h2⟩
        · right; rw [charListLe_cons]; exact Or.inr ⟨h.symm, h2⟩
      · right; rw [charListLe_cons]; exact Or.inl h

theorem charListLe_trans : ∀ as bs cs : List Char,
    charListLe as bs = true → charListLe bs cs = true → charListLe as cs = true := by
  intro as
  induction as with
  | nil => intro bs cs _ _; rfl
  | cons a as ih =>
    intro bs cs h1 h2
    cases bs with
    | nil => simp [charListLe] at h1
    | cons b bs =>
      cases cs with
      | nil => simp [charListLe] at h2
      | cons c cs =>
        rw [charListLe_cons] at h1 h2 ⊢
        rcases h1 with h1 | ⟨he1, h1⟩ <;> rcases h2 with h2 | ⟨he2, h2⟩
        · exact Or.inl (by omega)
        · exact Or.inl (by omega)
        · exact Or.inl (by omega)
        · exact Or.inr ⟨by omega, ih bs cs h1 h2⟩

instance : IsTotal Expense dateLe :=
  ⟨fun a b => charListLe_total a.date.toList b.date.toList⟩

instance : IsTrans Expense dateLe :=
  ⟨fun a b c h1 h2 => charListLe_trans a.date.toList b.date.toList c.date.toList h1 h2⟩

instance : IsTotal Expense dateGe :=
  ⟨fun a b => charListLe_total b.date.toList a.date.toList⟩

instance : IsTrans Expense dateGe :=
  ⟨fun a b c h1 h2 => charListLe_trans c.date.toList b.date.toList a.date.toList h2 h1⟩

theorem daysInMonth_le_31 (y m : Nat) : daysInMonth y m ≤ 31 := by
  unfold daysInMonth
  split_ifs <;> omega

/-- A date in zero-padded YYYY-MM-DD form is accepted by the strptime check. -/
theorem padded_strptime {s : String} (h : isPaddedValidDate s = true) :
    strptimeValidYMD s = true := by
  unfold isPaddedValidDate at h
  unfold strptimeValidYMD
  rcases hsp : splitOnDash s.toList with _ | ⟨ys, _ | ⟨ms, _ | ⟨ds, _ | ⟨e, tail⟩⟩⟩⟩ <;>
      rw [hsp] at h <;> try exact absurd h Bool.false_ne_true
  replace h := of_decide_eq_true h
  obtain ⟨h1, h2, h3, h4, h5, h6, h7, h8, h9, h10, h11⟩ := h
  exact decide_eq_true ⟨h1, h4, by omega, by omega, h5, by omega, by omega, h6, h7, h8, h9, h10, h11⟩

/-- On a zero-padded valid date, the SQLite strftime model returns exactly the
year-month prefix of the date. -/
theorem padded_sqlite {s : String} (h : isPaddedValidDate s = true) :
    sqliteYearMonth s = some (yearMonthOf s) := by
  unfold isPaddedValidDate at h
  unfold sqliteYearMonth yearMonthOf
  rcases hsp : splitOnDash s.toList with _ | ⟨ys, _ | ⟨ms, _ | ⟨ds, _ | ⟨e, tail⟩⟩⟩⟩ <;>
      rw [hsp] at h <;> try exact absurd h Bool.false_ne_true
  replace h := of_decide_eq_true h
  obtain ⟨h1, h2, h3, h4, h5, h6, h7, h8, h9, h10, h11⟩ := h
  show sqliteYM3 ys ms ds = some (ym2 ys ms)
  unfold sqliteYM3
  rw [if_pos ⟨h1, h2, h3, h4, h5, h6, h8, h9, h10, le_trans h11 (daysInMonth_le_31 _ _)⟩,
      if_neg (by omega)]

theorem lookup_mem_isSome {l : List (String × String)} {k v : String} (h : (k, v) ∈ l) :
    (l.lookup k).isSome = true := by
  induction l with
  | nil => simp at h
  | cons p t ih =>
    obtain ⟨a, b⟩ := p
    rcases List.mem_cons.1 h with h1 | h1
    · rw [Prod.mk.injEq] at h1
      obtain ⟨h1a, _⟩ := h1
      subst h1a
      simp [List.lookup]
    · by_cases hk : k = a
      · subst hk; simp [List.lookup]
      · have hk' : (k == a) = false := beq_eq_false_iff_ne.2 hk
        simp [List.lookup, hk', ih h1]

theorem sum_filter_not (l : List Expense) (p : Expense → Bool) :
    ((l.filter p).map Expense.amount).sum
      + ((l.filter (fun e => !(p e))).map Expense.amount).sum
      = (l.map Expense.amount).sum := by
  induction l with
  | nil => simp
  | cons e t ih =>
    by_cases h : p e = true
    · simp [List.filter_cons, h]
      linarith
    · have h' : p e = false := by simpa using h
      simp [List.filter_cons, h']
      linarith

theorem filter_fiber_ne (l : List Expense) (d d' : String) (h : d' ≠ d) :
    (l.filter (fun e => !(decide (e.date = d)))).filter (fun e => decide (e.date = d'))
      = l.filter (fun e => decide (e.date = d')) := by
  induction l with
  | nil => rfl
  | cons e t ih =>
    by_cases hz : e.date = d'
    · have hnd : ¬ (e.date = d) := fun hc => h (hz ▸ hc ▸ rfl)
      simp [List.filter_cons, hz, hnd, h, ih]
    · by_cases hw : e.date = d
      · simp [List.filter_cons, hz, hw, Ne.symm h, ih]
      · simp [List.filter_cons, hz, hw, ih]

theorem sum_fibers : ∀ (ds : List String) (l : List Expense), ds.Nodup →
    (∀ e ∈ l, e.date ∈ ds) →
    (ds.map (fun d => ((l.filter (fun e => decide (e.date = d))).map Expense.amount).sum)).sum
      = (l.map Expense.amount).sum := by
  intro ds
  induction ds with
  | nil =>
    intro l _ hall
    cases l with
    | nil => simp
    | cons e t => exact absurd (hall e (List.mem_cons_self e t)) (by simp)
  | cons d ds ih =>
    intro l hnd hall
    rw [List.map_cons, List.sum_cons]
    have hcong : ∀ d' ∈ ds,
        ((l.filter (fun e => decide (e.date = d'))).map Expense.amount).sum
          = (((l.filter (fun e => !(decide (e.date = d)))).filter
              (fun e => decide (e.date = d'))).map Expense.amount).sum := by
      intro d' hd'
      rw [filter_fiber_ne l d d' (fun hEq => (List.nodup_cons.1 hnd).1 (hEq ▸ hd'))]
    rw [List.map_congr_left hcong,
        ih (l.filter (fun e => !(decide (e.date = d)))) (List.nodup_cons.1 hnd).2
          (fun e he => by
            have hmem := List.mem_filter.1 he
            have hd : e.date ∈ d :: ds := hall e hmem.1
            have hne : ¬ (e.date = d) := by simpa using hmem.2
            exact (List.mem_cons.1 hd).resolve_left hne)]
    exact sum_filter_not l (fun e => decide (e.date = d))

/-! Characterization of each operation by its branch conditions. -/

theorem add_expense_rejected {db : DB} {d : String} {a : ℚ} {c n : String}
    (h : strptimeValidYMD d = false ∨ a ≤ 0) :
    add_expense db d a c n = (db, false) := by
  unfold add_expense; rw [if_pos h]

theorem add_expense_ok {db : DB} {d : String} {a : ℚ} {c n : String}
    (h : ¬ (strptimeValidYMD d = false ∨ a ≤ 0)) :
    add_expense db d a c n =
      ({ db with
          expenses := db.expenses ++ [⟨db.nextId, d, a, c, n⟩]
          nextId := db.nextId + 1 }, true) := by
  unfold add_expense; rw [if_neg h]

theorem add_category_empty {db : DB} {name : String} (h : pyStrip name = "") :
    add_category db name = (db, false, "Category name cannot be empty.") := by
  unfold add_category; rw [if_pos h]

theorem add_category_dup {db : DB} {name : String}
    (h1 : ¬ pyStrip name = "") (h2 : name ∈ db.categories) :
    add_category db name =
      (db, false, "Error: Category \x27" ++ name ++ "\x27 already exists.") := by
  unfold add_category; rw [if_neg h1, if_pos h2]

theorem add_category_new {db : DB} {name : String}
    (h1 : ¬ pyStrip name = "") (h2 : name ∉ db.categories) :
    add_category db name =
      ({ db with categories := db.categories ++ [name] },
       true, "Category \x27" ++ name ++ "\x27 added successfully.") := by
  unfold add_category; rw [if_neg h1, if_neg h2]

/-! Reachable-state invariants. -/

theorem good_step (op : Op) {db : DB} (h : GoodDB db) : GoodDB (applyOp db op) := by
  obtain ⟨hexp, hcur, hcat, htab⟩ := h
  cases op with
  | addExpense d a c n =>
    by_cases hcond : strptimeValidYMD d = false ∨ a ≤ 0
    · show GoodDB (add_expense db d a c n).1
      rw [add_expense_rejected hcond]
      exact ⟨hexp, hcur, hcat, htab⟩
    · show GoodDB (add_expense db d a c n).1
      rw [add_expense_ok hcond]
      push_neg at hcond
      obtain ⟨hval, hpos⟩ := hcond
      have hval' : strptimeValidYMD d = true := by
        rcases Bool.eq_false_or_eq_true (strptimeValidYMD d) with hb | hb
        · exact hb
        · exact absurd hb hval
      refine ⟨?_, hcur, hcat, htab⟩
      intro e he
      rcases List.mem_append.1 he with he | he
      · obtain ⟨h1, h2, h3⟩ := hexp e he
        exact ⟨h1, h2, Nat.lt_succ_of_lt h3⟩
      · have he' := List.mem_singleton.1 he
        subst he'
        exact ⟨hpos, hval', Nat.lt_succ_self _⟩
  | deleteExpense i =>
    refine ⟨?_, hcur, hcat, htab⟩
    intro e he
    exact hexp e (List.mem_filter.1 he).1
  | addCategory name =>
    by_cases h1 : pyStrip name = ""
    · show GoodDB (add_category db name).1
      rw [add_category_empty h1]
      exact ⟨hexp, hcur, hcat, htab⟩
    · by_cases h2 : name ∈ db.categories
      · show GoodDB (add_category db name).1
        rw [add_category_dup h1 h2]
        exact ⟨hexp, hcur, hcat, htab⟩
      · show GoodDB (add_category db name).1
        rw [add_category_new h1 h2]
        refine ⟨hexp, hcur, ?_, htab⟩
        simp
  | setMonthlyGoal m a =>
    show GoodDB (set_monthly_goal db m a)
    unfold set_monthly_goal
    split_ifs <;> exact ⟨hexp, hcur, hcat, htab⟩
  | updateSetting k v =>
    show GoodDB (update_setting db k v)
    unfold update_setting
    split_ifs with hs
    · refine ⟨hexp, ?_, hcat, htab⟩
      obtain ⟨w, hw⟩ := hcur
      by_cases hk : "currency_symbol" = k
      · refine ⟨v, ?_⟩
        have := List.mem_map_of_mem (fun kv : String × String =>
          if kv.1 = k then (k, v) else kv) hw
        simpa [← hk] using this
      · refine ⟨w, ?_⟩
        have := List.mem_map_of_mem (fun kv : String × String =>
          if kv.1 = k then (k, v) else kv) hw
        simpa [hk] using this
    · exact ⟨hexp, ⟨hcur.choose, List.mem_append_left _ hcur.choose_spec⟩, hcat, htab⟩
  | initDb =>
    show GoodDB (init_db db)
    unfold init_db
    refine ⟨fun e he => hexp e he, ?_, ?_, ?_⟩
    · show ∃ v, ("currency_symbol", v) ∈
        (if (db.settings.lookup "currency_symbol").isSome then db.settings
         else db.settings ++ [("currency_symbol", "$")])
      split_ifs with hs
      · exact hcur
      · exact ⟨"$", List.mem_append_right _ (List.mem_singleton.2 rfl)⟩
    · show (if db.categories.length = 0 then db.categories ++ defaultCategories
            else db.categories) ≠ []
      split_ifs with hc
      · simp [defaultCategories]
      · exact hcat
    · show List.foldl createTable db.tables tableNames = tableNames
      rw [htab]
      decide

theorem applyOps_cons (db : DB) (op : Op) (ops : List Op) :
    applyOps db (op :: ops) = applyOps (applyOp db op) ops := rfl

theorem good_applyOps (ops : List Op) : ∀ db : DB, GoodDB db → GoodDB (applyOps db ops) := by
  induction ops with
  | nil => intro db h; exact h
  | cons op ops ih =>
    intro db h
    rw [applyOps_cons]
    exact ih _ (good_step op h)

theorem dbInit_eq :
    dbInit = { tables := tableNames, expenses := [], nextId := 1,
               categories := defaultCategories, goals := [],
               settings := [("currency_symbol", "$")] } := by decide

theorem good_dbInit : GoodDB dbInit := by
  rw [dbInit_eq]
  refine ⟨?_, ⟨"$", ?_⟩, ?_, rfl⟩
  · intro e he
    exact absurd he (by simp)
  · simp
  · simp [defaultCategories]

theorem reachable_good {db : DB} (h : Reachable db) : GoodDB db := by
  obtain ⟨ops, rfl⟩ := h
  exact good_applyOps ops dbInit good_dbInit

theorem init_noop {db : DB} (h : GoodDB db) : init_db db = db := by
  obtain ⟨-, ⟨v, hv⟩, hcat, htab⟩ := h
  have hs : (db.settings.lookup "currency_symbol").isSome = true := lookup_mem_isSome hv
  have hc : ¬ (db.categories.length = 0) := by
    simpa [List.length_eq_zero] using hcat
  unfold init_db
  rw [if_pos hs, if_neg hc, htab]
  rw [show List.foldl createTable tableNames tableNames = tableNames from by decide]
  rw [← htab]

theorem already_ne_empty (name : String) :
    ("Error: Category \x27" ++ name ++ "\x27 already exists.")
      ≠ "Category name cannot be empty." := by
  intro h
  have hlen := congrArg String.length h
  rw [String.length_append, String.length_append] at hlen
  have l1 : "Error: Category \x27".length = 17 := by decide
  have l2 : "\x27 already exists.".length = 17 := by decide
  have l3 : "Category name cannot be empty.".length = 30 := by decide
  rw [l1, l2, l3] at hlen
  omega

/-! Claim theorems. -/

/-- C2 (amended): add_expense returns a failure exactly when the date string is
not accepted by the strptime YYYY-MM-DD parse (a real calendar date with
4-digit year and 1- or 2-digit month and day, zero padding optional) or the
amount is not positive, and on every such rejection the stored state is
completely unchanged. -/
theorem C2_add_expense_validation :
    ∀ (db : DB) (date : String) (amount : ℚ) (category note : String),
    ((add_expense db date amount category note).2 = false ↔
      (strptimeValidYMD date = false ∨ amount ≤ 0)) ∧
    ((add_expense db date amount category note).2 = false →
      (add_expense db date amount category note).1 = db) := by
  intro db date amount category note
  by_cases h : strptimeValidYMD date = false ∨ amount ≤ 0
  · rw [add_expense_rejected h]
    exact ⟨⟨fun _ => h, fun _ => rfl⟩, fun _ => rfl⟩
  · rw [add_expense_ok h]
    refine ⟨⟨fun hf => absurd hf (by simp), fun hc => absurd hc h⟩, fun hf => absurd hf (by simp)⟩

/-- C2 witness: a rejected call at a concrete bad month leaves the store as it
was. -/
theorem C2_witness :
    (add_expense dbInit "2024-13-01" 5 "Food" "x").2 = false ∧
    (add_expense dbInit "2024-13-01" 5 "Food" "x").1 = dbInit := by
  have h := C2_add_expense_validation dbInit "2024-13-01" 5 "Food" "x"
  have hf : (add_expense dbInit "2024-13-01" 5 "Food" "x").2 = false :=
    h.1.mpr (Or.inl (by decide))
  exact ⟨hf, h.2 hf⟩

/-- C2 counterexample: the date 2024-1-5 is not in zero-padded YYYY-MM-DD form,
yet add_expense accepts it, refuting the claimed equivalence as stated. -/
theorem C2_counterexample :
    (add_expense dbInit "2024-1-5" 5 "Food" "").2 = true ∧
    isPaddedValidDate "2024-1-5" = false := by
  exact ⟨by decide, by decide⟩

/-- C3: delete_expense returns true exactly when a row with the given id
existed; the surviving rows are exactly those with a different id; and when no
row with the id exists the store is entirely unchanged. -/
theorem C3_delete_expense : ∀ (db : DB) (i : Nat),
    ((delete_expense db i).2 = true ↔ ∃ e ∈ db.expenses, e.id = i) ∧
    (∀ e ∈ (delete_expense db i).1.expenses, e.id ≠ i) ∧
    ((delete_expense db i).1.expenses = db.expenses.filter (fun e => e.id ≠ i)) ∧
    ((¬ ∃ e ∈ db.expenses, e.id = i) →
      (delete_expense db i).2 = false ∧ (delete_expense db i).1 = db) := by
  intro db i
  have hiff : (delete_expense db i).2 = true ↔ ∃ e ∈ db.expenses, e.id = i := by
    show decide (0 < db.expenses.countP (fun e => decide (e.id = i))) = true ↔ _
    rw [decide_eq_true_eq, List.countP_pos_iff]
    constructor
    · rintro ⟨e, he, hp⟩; exact ⟨e, he, of_decide_eq_true hp⟩
    · rintro ⟨e, he, hp⟩; exact ⟨e, he, decide_eq_true hp⟩
  refine ⟨hiff, ?_, rfl, ?_⟩
  · intro e he
    have hm := List.mem_filter.1 he
    simpa using hm.2
  · intro hne
    have hfalse : (delete_expense db i).2 = false := by
      rcases Bool.eq_false_or_eq_true (delete_expense db i).2 with hb | hb
      · exact absurd (hiff.1 hb) hne
      · exact hb
    refine ⟨hfalse, ?_⟩
    show { db with expenses := db.expenses.filter (fun e => e.id ≠ i) } = db
    have : db.expenses.filter (fun e => e.id ≠ i) = db.expenses := by
      refine List.filter_eq_self.2 ?_
      intro e he
      have : ¬ (e.id = i) := fun hc => hne ⟨e, he, hc⟩
      simpa using this
    rw [this]

/-- C3 witness: deleting a never-issued id from a concrete one-row store
returns with the store unchanged. -/
theorem C3_witness :
    (¬ ∃ e ∈ dbOne.expenses, e.id = 999) ∧
    (delete_expense dbOne 999).2 = false ∧ (delete_expense dbOne 999).1 = dbOne := by
  have hne : ¬ ∃ e ∈ dbOne.expenses, e.id = 999 := by decide
  exact ⟨hne, (C3_delete_expense dbOne 999).2.2.2 hne⟩

/-- C4 (amended): with a positive goal the status label follows the
spent-to-goal ratio bands (on track up to 85 percent, nearing budget up to
100 percent, over budget beyond); with goal not positive — including the
goal = 0 case — the distinct no-goal message is shown regardless of spent. -/
theorem C4_budget_bands : ∀ goal spent : ℚ,
    (0 < goal →
      ((spent / goal ≤ 85 / 100 ↔ budget_status goal spent = "Status: On Track") ∧
       (85 / 100 < spent / goal ∧ spent / goal ≤ 1 ↔
          budget_status goal spent = "Status: Nearing Budget") ∧
       (1 < spent / goal ↔ budget_status goal spent = "Status: Over Budget!"))) ∧
    (goal ≤ 0 → budget_status goal spent = "Set a goal to see your status.") := by
  intro goal spent
  constructor
  · intro hg
    unfold budget_status
    rw [if_pos hg]
    by_cases h1 : 100 < spent / goal * 100
    · rw [if_pos h1]
      exact ⟨⟨fun hx => False.elim (by linarith), fun hx => absurd hx (by decide)⟩,
             ⟨fun hx => False.elim (by obtain ⟨hx1, hx2⟩ := hx; linarith),
              fun hx => absurd hx (by decide)⟩,
             ⟨fun _ => rfl, fun _ => by linarith⟩⟩
    · by_cases h2 : 85 < spent / goal * 100
      · rw [if_neg h1, if_pos h2]
        exact ⟨⟨fun hx => False.elim (by linarith), fun hx => absurd hx (by decide)⟩,
               ⟨fun _ => rfl, fun _ => ⟨by linarith, by linarith⟩⟩,
               ⟨fun hx => False.elim (by linarith), fun hx => absurd hx (by decide)⟩⟩
      · rw [if_neg h1, if_neg h2]
        exact ⟨⟨fun _ => rfl, fun _ => by linarith⟩,
               ⟨fun hx => False.elim (by obtain ⟨hx1, hx2⟩ := hx; linarith),
                fun hx => absurd hx (by decide)⟩,
               ⟨fun hx => False.elim (by linarith), fun hx => absurd hx (by decide)⟩⟩
  · intro hg0
    unfold budget_status
    rw [if_neg (not_lt.2 hg0)]

/-- C4 witness: the concrete spec examples goal 100 with spent 90 lands in the
nearing-budget band. -/
theorem C4_witness :
    (0 : ℚ) < 100 ∧ (85 / 100 : ℚ) < 90 / 100 ∧ (90 / 100 : ℚ) ≤ 1 ∧
    budget_status 100 90 = "Status: Nearing Budget" := by
  refine ⟨by norm_num, by norm_num, by norm_num, ?_⟩
  exact ((C4_budget_bands 100 90).1 (by norm_num)).2.1.mp ⟨by norm_num, by norm_num⟩

/-- C4 counterexample: at goal = -1 and spent = 0 the ratio is at most 85
percent, yet the code shows the no-goal message rather than the on-track
status the claim assigns to every goal value. -/
theorem C4_counterexample :
    budget_status (-1) 0 = "Set a goal to see your status." ∧
    (0 : ℚ) / (-1) ≤ 85 / 100 ∧
    budget_status (-1) 0 ≠ "Status: On Track" := by
  refine ⟨?_, by norm_num, ?_⟩
  · unfold budget_status; rw [if_neg (by norm_num)]
  · unfold budget_status; rw [if_neg (by norm_num)]; decide

/-- C7: add_category rejects an empty or whitespace-only name before touching
storage with a message distinct from the uniqueness-conflict message; adding
an existing name returns the distinct already-exists outcome with the store
unchanged; and after two calls with the same fresh name the sorted category
listing holds that name exactly once. -/
theorem C7_add_category : ∀ (db : DB) (name : String),
    (pyStrip name = "" →
      add_category db name = (db, false, "Category name cannot be empty.")) ∧
    (pyStrip name ≠ "" → name ∈ db.categories →
      add_category db name =
        (db, false, "Error: Category \x27" ++ name ++ "\x27 already exists.") ∧
      ("Error: Category \x27" ++ name ++ "\x27 already exists.")
        ≠ "Category name cannot be empty.") ∧
    (pyStrip name ≠ "" → name ∉ db.categories →
      (add_category db name).2.1 = true ∧
      (add_category (add_category db name).1 name).2.1 = false ∧
      List.count name (get_categories (add_category (add_category db name).1 name).1)
        = 1) := by
  intro db name
  refine ⟨fun h => add_category_empty h, ?_, ?_⟩
  · intro h1 h2
    exact ⟨add_category_dup h1 h2, already_ne_empty name⟩
  · intro h1 h2
    rw [add_category_new h1 h2]
    have hmem : name ∈ ({ db with categories := db.categories ++ [name] } : DB).categories :=
      List.mem_append_right _ (List.mem_singleton.2 rfl)
    rw [add_category_dup h1 hmem]
    refine ⟨rfl, rfl, ?_⟩
    show List.count name
      (List.insertionSort (fun a b => strLe a b = true) (db.categories ++ [name])) = 1
    rw [(List.perm_insertionSort (fun a b => strLe a b = true)
          (db.categories ++ [name])).count_eq]
    rw [List.count_append, List.count_eq_zero.2 h2]
    simp

/-- C7 witness: adding the fresh name Gym twice to the initialized store
succeeds once, fails once, and lists Gym exactly once. -/
theorem C7_witness :
    pyStrip "Gym" ≠ "" ∧ "Gym" ∉ dbInit.categories ∧
    (add_category dbInit "Gym").2.1 = true ∧
    (add_category (add_category dbInit "Gym").1 "Gym").2.1 = false ∧
    List.count "Gym" (get_categories (add_category (add_category dbInit "Gym").1 "Gym").1)
      = 1 := by
  have h := (C7_add_category dbInit "Gym").2.2 (by decide) (by decide)
  exact ⟨by decide, by decide, h.1, h.2.1, h.2.2⟩

/-- C10: a name that is non-empty after stripping is stored exactly as given,
with no trimming: a concrete name with surrounding spaces is accepted and the
listing then holds both the spaced and the unspaced name. -/
theorem C10_verbatim :
    (∀ (db : DB) (name : String), pyStrip name ≠ "" → name ∉ db.categories →
      (add_category db name).1.categories = db.categories ++ [name]) ∧
    ((add_category dbInit " Food ").2.1 = true ∧
     (" Food " : String) ≠ "Food" ∧
     " Food " ∈ get_categories (add_category dbInit " Food ").1 ∧
     "Food" ∈ get_categories (add_category dbInit " Food ").1) := by
  constructor
  · intro db name h1 h2
    rw [add_category_new h1 h2]
  · exact ⟨by decide, by decide, by decide, by decide⟩

/-- C10 witness: the spaced name is appended verbatim to the category table of
the initialized store. -/
theorem C10_witness :
    pyStrip " Food " ≠ "" ∧ " Food " ∉ dbInit.categories ∧
    (add_category dbInit " Food ").1.categories = dbInit.categories ++ [" Food "] :=
  ⟨by decide, by decide, C10_verbatim.1 dbInit " Food " (by decide) (by decide)⟩

/-- C5: get_average_daily_expense is the mean of per-day sums over exactly the
days that have at least one expense — equivalently the total of all amounts
divided by the number of distinct expense dates — and zero when no expenses
exist; on the example with 10 on one day and 4 plus 6 on another it yields
10, not 20 thirds. -/
theorem C5_average_daily :
    (∀ (db : DB) (d : String),
      d ∈ (db.expenses.map Expense.date).dedup ↔ ∃ e ∈ db.expenses, e.date = d) ∧
    (∀ db : DB, db.expenses = [] → get_average_daily_expense db = 0) ∧
    (∀ db : DB, db.expenses ≠ [] →
      get_average_daily_expense db =
        (db.expenses.map Expense.amount).sum
          / (((db.expenses.map Expense.date).dedup.length : ℚ))) ∧
    get_average_daily_expense avgExampleDB = 10 := by
  refine ⟨?_, ?_, ?_, ?_⟩
  · intro db d
    rw [List.mem_dedup, List.mem_map]
  · intro db h
    simp only [get_average_daily_expense, h]
    simp
  · intro db h
    have hne : (db.expenses.map Expense.date).dedup ≠ [] := by
      intro hd
      exact h (by simpa using (List.dedup_eq_nil _).1 hd)
    simp only [get_average_daily_expense]
    rw [if_neg hne]
    rw [sum_fibers (db.expenses.map Expense.date).dedup db.expenses
          (List.nodup_dedup _)
          (fun e he => List.mem_dedup.2 (List.mem_map_of_mem Expense.date he))]
  · have hd : ((avgExampleDB.expenses.map Expense.date).dedup) = ["2024-01-01", "2024-01-02"] := by
      show (["2024-01-01", "2024-01-02", "2024-01-02"] : List String).dedup = _
      rw [List.dedup_cons_of_not_mem (by decide), List.dedup_cons_of_mem (by decide),
          List.dedup_cons_of_not_mem (by decide), List.dedup_nil]
    simp only [get_average_daily_expense, hd]
    simp [avgExampleDB, List.filter_cons]
    norm_num

/-- C5 witness: the example store is nonempty and its average equals the total
over the number of distinct days. -/
theorem C5_witness :
    avgExampleDB.expenses ≠ [] ∧
    get_average_daily_expense avgExampleDB =
      (avgExampleDB.expenses.map Expense.amount).sum
        / ((avgExampleDB.expenses.map Expense.date).dedup.length : ℚ) :=
  ⟨by decide, C5_average_daily.2.2.1 avgExampleDB (by decide)⟩

/-- C6: get_expenses_in_date_range returns exactly the stored rows whose date
lies between the bounds inclusively under lexicographic (BINARY) string
comparison, ordered by date ascending; on the concrete example the range up
to 2024-01-31 includes the row dated 2024-01-31 and excludes the row dated
2024-02-01. -/
theorem C6_date_range : ∀ (db : DB) (s e : String),
    (∀ t : String × ℚ × String × String,
      t ∈ get_expenses_in_date_range db s e ↔
        ∃ x ∈ db.expenses, (strLe s x.date = true ∧ strLe x.date e = true) ∧
          t = (x.date, x.amount, x.category, x.note)) ∧
    List.Pairwise (fun t u : String × ℚ × String × String => strLe t.1 u.1 = true)
      (get_expenses_in_date_range db s e) ∧
    (("2024-01-31", (5 : ℚ), "Food", "")
        ∈ get_expenses_in_date_range rangeExampleDB "2024-01-01" "2024-01-31" ∧
     ("2024-02-01", (7 : ℚ), "Food", "")
        ∉ get_expenses_in_date_range rangeExampleDB "2024-01-01" "2024-01-31") := by
  intro db s e
  refine ⟨?_, ?_, by decide, by decide⟩
  · intro t
    unfold get_expenses_in_date_range
    rw [List.mem_map]
    constructor
    · rintro ⟨x, hx, rfl⟩
      obtain ⟨hmem, hcond⟩ := List.mem_filter.1 ((List.mem_insertionSort dateLe).1 hx)
      rw [Bool.and_eq_true] at hcond
      exact ⟨x, hmem, ⟨hcond.1, hcond.2⟩, rfl⟩
    · rintro ⟨x, hx, ⟨hc1, hc2⟩, rfl⟩
      refine ⟨x, (List.mem_insertionSort dateLe).2 (List.mem_filter.2 ⟨hx, ?_⟩), rfl⟩
      rw [Bool.and_eq_true]
      exact ⟨hc1, hc2⟩
  · unfold get_expenses_in_date_range
    rw [List.pairwise_map]
    exact List.sorted_insertionSort dateLe
      (db.expenses.filter (fun x => strLe s x.date && strLe x.date e))

/-- C6 witness: the range query on the concrete example store, instantiated
through the range theorem, includes the boundary row. -/
theorem C6_witness :
    ("2024-01-31", (5 : ℚ), "Food", "")
      ∈ get_expenses_in_date_range rangeExampleDB "2024-01-01" "2024-01-31" :=
  (C6_date_range rangeExampleDB "2024-01-01" "2024-01-31").2.2.1

/-- C8: initialization of a fresh store creates the four tables, seeds the
default currency symbol and the five default categories; categories are
seeded only when the category set is empty; and on every reachable — hence
already initialized — store, in any state, running initialization again
changes nothing at all. -/
theorem C8_init_idempotent :
    (dbInit.tables = tableNames ∧
     dbInit.settings = [("currency_symbol", "$")] ∧
     dbInit.categories = defaultCategories) ∧
    (∀ db : DB, db.categories ≠ [] → (init_db db).categories = db.categories) ∧
    (∀ db : DB, Reachable db → init_db db = db) := by
  refine ⟨⟨by decide, by decide, by decide⟩, ?_, ?_⟩
  · intro db h
    show (if db.categories.length = 0 then db.categories ++ defaultCategories
          else db.categories) = db.categories
    rw [if_neg (by simpa [List.length_eq_zero] using h)]
  · intro db h
    exact init_noop (reachable_good h)

/-- C8 witness: initializing the already initialized store again is an exact
no-op. -/
theorem C8_witness : init_db dbInit = dbInit :=
  C8_init_idempotent.2.2 dbInit ⟨[], rfl⟩

/-- C9: every expense row of every reachable store state has a positive amount
and a strptime-valid calendar date; and no operation mutates an existing row —
each row either survives an operation bit-for-bit or the operation is its
deletion by id, and the only row an operation can add is the one add_expense
inserts with a fresh id. -/
theorem C9_expense_invariants :
    (∀ db : DB, Reachable db → ∀ e ∈ db.expenses,
        0 < e.amount ∧ strptimeValidYMD e.date = true) ∧
    (∀ (db : DB) (op : Op), ∀ e ∈ db.expenses,
        e ∈ (applyOp db op).expenses ∨ op = Op.deleteExpense e.id) ∧
    (∀ (db : DB) (op : Op), ∀ e ∈ (applyOp db op).expenses,
        e ∈ db.expenses ∨
          ∃ d a c n, op = Op.addExpense d a c n ∧ e = ⟨db.nextId, d, a, c, n⟩) := by
  refine ⟨?_, ?_, ?_⟩
  · intro db h e he
    obtain ⟨hexp, -, -, -⟩ := reachable_good h
    exact ⟨(hexp e he).1, (hexp e he).2.1⟩
  · intro db op e he
    cases op with
    | addExpense d a c n =>
      left
      show e ∈ (add_expense db d a c n).1.expenses
      by_cases hcond : strptimeValidYMD d = false ∨ a ≤ 0
      · rw [add_expense_rejected hcond]; exact he
      · rw [add_expense_ok hcond]
        exact List.mem_append_left _ he
    | deleteExpense i =>
      by_cases hid : e.id = i
      · right; rw [hid]
      · left
        show e ∈ db.expenses.filter (fun x => x.id ≠ i)
        exact List.mem_filter.2 ⟨he, by simpa using hid⟩
    | addCategory name =>
      left
      show e ∈ (add_category db name).1.expenses
      by_cases h1 : pyStrip name = ""
      · rw [add_category_empty h1]; exact he
      · by_cases h2 : name ∈ db.categories
        · rw [add_category_dup h1 h2]; exact he
        · rw [add_category_new h1 h2]; exact he
    | setMonthlyGoal m a =>
      left
      show e ∈ (set_monthly_goal db m a).expenses
      unfold set_monthly_goal
      split_ifs <;> exact he
    | updateSetting k v =>
      left
      show e ∈ (update_setting db k v).expenses
      unfold update_setting
      split_ifs <;> exact he
    | initDb =>
      left; exact he
  · intro db op e he
    cases op with
    | addExpense d a c n =>
      replace he : e ∈ (add_expense db d a c n).1.expenses := he
      by_cases hcond : strptimeValidYMD d = false ∨ a ≤ 0
      · rw [add_expense_rejected hcond] at he
        exact Or.inl he
      · rw [add_expense_ok hcond] at he
        rcases List.mem_append.1 he with h | h
        · exact Or.inl h
        · exact Or.inr ⟨d, a, c, n, rfl, List.mem_singleton.1 h⟩
    | deleteExpense i =>
      replace he : e ∈ db.expenses.filter (fun x => x.id ≠ i) := he
      exact Or.inl (List.mem_filter.1 he).1
    | addCategory name =>
      replace he : e ∈ (add_category db name).1.expenses := he
      left
      by_cases h1 : pyStrip name = ""
      · rw [add_category_empty h1] at he; exact he
      · by_cases h2 : name ∈ db.categories
        · rw [add_category_dup h1 h2] at he; exact he
        · rw [add_category_new h1 h2] at he; exact he
    | setMonthlyGoal m a =>
      replace he : e ∈ (set_monthly_goal db m a).expenses := he
      left
      unfold set_monthly_goal at he
      split_ifs at he <;> exact he
    | updateSetting k v =>
      replace he : e ∈ (update_setting db k v).expenses := he
      left
      unfold update_setting at he
      split_ifs at he <;> exact he
    | initDb =>
      left; exact he

/-- C9 witness: the row created in the one-row store satisfies the invariant,
via its reachability. -/
theorem C9_witness :
    (⟨1, "2024-01-05", 3, "Food", "lunch"⟩ : Expense) ∈ dbOne.expenses ∧
    (0 < (⟨1, "2024-01-05", 3, "Food", "lunch"⟩ : Expense).amount ∧
     strptimeValidYMD (⟨1, "2024-01-05", 3, "Food", "lunch"⟩ : Expense).date = true) := by
  refine ⟨by decide, C9_expense_invariants.1 dbOne
    ⟨[Op.addExpense "2024-01-05" 3 "Food" "lunch"], rfl⟩ _ (by decide)⟩

/-- C1: on any reachable store, adding an expense with a real zero-padded
YYYY-MM-DD date and a positive amount succeeds; the listing then holds the new
row with exactly the given field values exactly once (and every other row
keeps its multiplicity), and the monthly total for that date's year-month
grows by exactly the amount. -/
theorem C1_add_then_query :
    ∀ (db : DB) (date : String) (amount : ℚ) (category note : String),
    Reachable db → isPaddedValidDate date = true → 0 < amount →
    ((add_expense db date amount category note).2 = true ∧
     List.count (⟨db.nextId, date, amount, category, note⟩ : Expense)
        (get_all_expenses (add_expense db date amount category note).1) = 1 ∧
     List.count (⟨db.nextId, date, amount, category, note⟩ : Expense)
        (get_all_expenses db) = 0 ∧
     (∀ x : Expense, x ≠ ⟨db.nextId, date, amount, category, note⟩ →
        List.count x (get_all_expenses (add_expense db date amount category note).1)
          = List.count x (get_all_expenses db)) ∧
     get_total_expenses_for_month (add_expense db date amount category note).1
         (yearMonthOf date)
       = get_total_expenses_for_month db (yearMonthOf date) + amount) := by
  intro db date amount category note hreach hdate hpos
  have hcond : ¬ (strptimeValidYMD date = false ∨ amount ≤ 0) := by
    rintro (h | h)
    · rw [padded_strptime hdate] at h
      exact absurd h (by decide)
    · linarith
  rw [add_expense_ok hcond]
  obtain ⟨hexp, -, -, -⟩ := reachable_good hreach
  have hnot : (⟨db.nextId, date, amount, category, note⟩ : Expense) ∉ db.expenses :=
    fun hmem => Nat.lt_irrefl db.nextId
      (hexp ⟨db.nextId, date, amount, category, note⟩ hmem).2.2
  refine ⟨rfl, ?_, ?_, ?_, ?_⟩
  · show List.count (⟨db.nextId, date, amount, category, note⟩ : Expense)
      (List.insertionSort dateGe
        (db.expenses ++ [⟨db.nextId, date, amount, category, note⟩])) = 1
    rw [(List.perm_insertionSort dateGe _).count_eq, List.count_append,
        List.count_eq_zero.2 hnot]
    simp
  · show List.count (⟨db.nextId, date, amount, category, note⟩ : Expense)
      (List.insertionSort dateGe db.expenses) = 0
    rw [(List.perm_insertionSort dateGe _).count_eq]
    exact List.count_eq_zero.2 hnot
  · intro x hx
    show List.count x (List.insertionSort dateGe
        (db.expenses ++ [⟨db.nextId, date, amount, category, note⟩]))
      = List.count x (List.insertionSort dateGe db.expenses)
    rw [(List.perm_insertionSort dateGe _).count_eq,
        (List.perm_insertionSort dateGe _).count_eq, List.count_append]
    have hz : List.count x [(⟨db.nextId, date, amount, category, note⟩ : Expense)] = 0 := by
      simp [List.count_cons, Ne.symm hx]
    rw [hz]
    omega
  · show (((db.expenses ++ [(⟨db.nextId, date, amount, category, note⟩ : Expense)]).filter
        (fun e : Expense => sqliteYearMonth e.date = some (yearMonthOf date))).map
          Expense.amount).sum
      = ((db.expenses.filter
        (fun e : Expense => sqliteYearMonth e.date = some (yearMonthOf date))).map
          Expense.amount).sum
        + amount
    rw [List.filter_append]
    have hf : List.filter (fun e : Expense => sqliteYearMonth e.date = some (yearMonthOf date))
        [(⟨db.nextId, date, amount, category, note⟩ : Expense)]
        = [(⟨db.nextId, date, amount, category, note⟩ : Expense)] := by
      simp [List.filter_cons, padded_sqlite hdate]
    rw [hf, List.map_append, List.sum_append]
    simp

/-- C1 witness: adding a concrete valid expense to the initialized store
succeeds and raises that month's total by the amount. -/
theorem C1_witness :
    isPaddedValidDate "2024-01-05" = true ∧ (0 : ℚ) < 3 ∧
    (add_expense dbInit "2024-01-05" 3 "Food" "lunch").2 = true ∧
    get_total_expenses_for_month (add_expense dbInit "2024-01-05" 3 "Food" "lunch").1
        (yearMonthOf "2024-01-05")
      = get_total_expenses_for_month dbInit (yearMonthOf "2024-01-05") + 3 := by
  have h := C1_add_then_query dbInit "2024-01-05" 3 "Food" "lunch"
    ⟨[], rfl⟩ (by decide) (by decide)
  exact ⟨by decide, by decide, h.1, h.2.2.2.2⟩

end PyTrack
